import Mathlib

/-!
Verification of the `lab` execution-environment and result-aggregation core.

The development shallowly embeds the Python sources `lab/environments.py` and
`lab/fetcher.py`.  Several collaborators of those two files live in
`lab/tools.py` and in the job templates under `lab/data/`, which are part of
the repository but whose source is not available here; wherever such a
collaborator decides a property, the corresponding definition is modelled from
the specification and its doc comment starts with "Modelled from the spec:".
In particular:

* `tools.Properties` (the Property Store) is modelled from the spec as an
  ordered association list whose `set` operation overwrites an existing key in
  place and appends a fresh key at the end.
* a `logging.critical` call is, per the spec's error-handling design, a hard
  abort of the current invocation (the repository's `tools` module installs a
  handler that exits on critical records); it is embedded as an `Except.error`
  or as an aborting trace event.
* `tools.confirm_or_abort` prompts and, on decline, aborts.  A callee of the
  submission loop can only return (after which `run_steps` unconditionally
  writes and submits the job) or raise, which unwinds the whole `run_steps`
  invocation; so declining is embedded as an abort of the whole invocation —
  the only decline behavior the loop's control flow admits.

Machine-level caveats of the embedding: Python's `int(math.ceil(a / float(b)))`
is modelled as exact ceiling division (exact for the magnitudes involved), and
Python's unicode-aware `str.isdigit` is modelled by ASCII `Char.isDigit`.
-/

set_option maxRecDepth 80000

/-! ### Property values and property stores

`tools.Properties` is not under `src/`.  Modelled from the spec: an ordered
key→value record ("preserves insertion order for display"; "nested merge
overwrites any existing key with the same composite id").  A value is a
string, a number, or a list of strings (the shape a run id takes). -/

/-- A value stored in a per-run property file: a string, an integer, or a
list of strings (run ids are lists of path segments). -/
inductive PVal : Type
  | str (s : String)
  | num (n : Int)
  | strList (l : List String)
deriving DecidableEq

/-- A per-run property store: an ordered association list, as loaded from one
`properties` file. -/
abbrev Props := List (String × PVal)

/-- The combined property store built by the fetcher: it maps a composite run
key to that run's whole nested property store. -/
abbrev Store := List (String × Props)

/-- Look a key up in an ordered association list (first match wins). -/
def getVal {V : Type} (k : String) : List (String × V) → Option V
  | [] => none
  | p :: t => if p.1 = k then some p.2 else getVal k t

/-- Modelled from the spec: `Properties.__setitem__` of an ordered store.
Setting an existing key overwrites its value in place (keeping its position);
setting a fresh key appends it at the end. -/
def setKey {V : Type} (s : List (String × V)) (k : String) (v : V) : List (String × V) :=
  if s.any (fun p => p.1 = k) then
    s.map (fun p => if p.1 = k then (k, v) else p)
  else
    s ++ [(k, v)]

/-- The keys of an association list, in order. -/
def keysOf {V : Type} (s : List (String × V)) : List String :=
  s.map Prod.fst

/-- Modelled from the spec: `Properties.write` renders the store as a
deterministic text file ("a flat, human-readable key/value text file").  Any
injective deterministic rendering represents byte-level content faithfully. -/
def renderPVal : PVal → String
  | .str s => "\"" ++ s ++ "\""
  | .num n => toString n
  | .strList l => "[" ++ String.intercalate ", " (l.map (fun s => "\"" ++ s ++ "\"")) ++ "]"

/-- Render one nested per-run store. -/
def renderProps (p : Props) : String :=
  String.intercalate "\n" (p.map (fun kv => kv.1 ++ " = " ++ renderPVal kv.2))

/-- Render the combined store: the bytes `Properties.write` persists. -/
def renderStore (s : Store) : String :=
  String.intercalate "\n\n" (s.map (fun kv => "[" ++ kv.1 ++ "]\n" ++ renderProps kv.2))

/-! ### The fetcher (`lab/fetcher.py`)

A run directory is embedded as its path together with the property store its
`properties` file holds.  Filesystem reading (`tools.Properties(filename=...)`)
is embedded by handing each run directory its parsed store.  `copy_all` is
`False` and `write_combined_props` is `True` throughout, the defaults under
which the aggregation claims are stated. -/

/-- One run directory: its path and the contents of its `properties` file. -/
structure RunDir : Type where
  path : String
  props : Props
deriving DecidableEq

/-- `prop_file = os.path.join(run_dir, 'properties')` in `Fetcher.fetch_dir`. -/
def propFileOf (d : RunDir) : String :=
  d.path ++ "/properties"

/-- The message of `logging.critical('id is not set in %s.' % prop_file)`. -/
def criticalIdMsg (propFile : String) : String :=
  "id is not set in " ++ propFile ++ "."

/-- Python truthiness of an optional property value: `None`, an empty string,
zero, and an empty list are falsy (`if not run_id:` in `fetch_dir`). -/
def pyFalsy : Option PVal → Bool
  | none => true
  | some (.str s) => s = ""
  | some (.num n) => n = 0
  | some (.strList l) => l.isEmpty

/-- `'-'.join(run_id)`: joining is defined for a list of strings and, as in
Python, for a string (joining its characters); joining a number raises. -/
def joinRunId : PVal → Except String String
  | .strList l => .ok (String.intercalate "-" l)
  | .str s => .ok (String.intercalate "-" (s.data.map (fun c => String.mk [c])))
  | .num _ => .error "TypeError: can only join an iterable of strings"

/-- `Fetcher.fetch_dir` (without `copy_all`): read the run's store, abort with
a critical integrity error naming the property file when the id is missing or
falsy, otherwise return the id and the whole store.  The critical-aborts
semantics is modelled from the spec (see the file header). -/
def fetch_dir (d : RunDir) : Except String (PVal × Props) :=
  match getVal "id" d.props with
  | none => .error (criticalIdMsg (propFileOf d))
  | some v =>
    if pyFalsy (some v) then .error (criticalIdMsg (propFileOf d))
    else .ok (v, d.props)

/-- One iteration of the fetch loop: fetch the directory and merge its store
into the accumulator under the joined id key
(`combined_props['-'.join(run_id)] = props`). -/
def fetchStep (acc : Store) (d : RunDir) : Except String Store :=
  match fetch_dir d with
  | .error e => .error e
  | .ok (v, props) =>
    match joinRunId v with
    | .error e => .error e
    | .ok k => .ok (setKey acc k props)

/-- The fetch loop over the sorted run directories.  The combined store is
persisted only after the loop finishes (`combined_props.write()` is the last
statement), so an abort inside the loop persists nothing. -/
def fetchLoop : List RunDir → Store → Except String Store
  | [], acc => .ok acc
  | d :: ds, acc =>
    match fetchStep acc d with
    | .error e => .error e
    | .ok acc2 => fetchLoop ds acc2

/-- Python `str.endswith`, on the character lists. -/
def pyEndsWith (s suf : String) : Bool :=
  suf.data.isSuffixOf s.data

/-- Code-point lexicographic comparison of character lists: Python's string
ordering, used by `sorted`. -/
def charListLe : List Char → List Char → Bool
  | [], _ => true
  | _ :: _, [] => false
  | a :: as, b :: bs => if a = b then charListLe as bs else decide (a < b)

/-- Python string `<=`: lexicographic on code points. -/
def strLe (s t : String) : Bool :=
  charListLe s.data t.data

/-- Insert a run directory into a path-sorted list. -/
def insertDir (d : RunDir) : List RunDir → List RunDir
  | [] => [d]
  | e :: es => if strLe d.path e.path then d :: e :: es else e :: insertDir d es

/-- `sorted(glob(os.path.join(exp_dir, 'runs-*-*', '*')))`: the run
directories in lexicographically sorted path order. -/
def sortRunDirs : List RunDir → List RunDir
  | [] => []
  | d :: ds => insertDir d (sortRunDirs ds)

/-- `eval_dir = eval_dir or exp_dir + '-eval'`: the destination directory;
Python's `or` falls back on a falsy (`None` or empty) argument. -/
def evalDirOf (exp_dir : String) (eval_dir : Option String) : String :=
  match eval_dir with
  | none => exp_dir ++ "-eval"
  | some e => if e = "" then exp_dir ++ "-eval" else e

/-- `Fetcher.__call__`.  Arguments: the source experiment directory path, the
optional destination, the run directories found on disk, and the combined
store already present at the destination (`tools.Properties(filename=...)`
loads an existing file; `dest0 = []` embeds an absent one).  The `assert not
exp_dir.endswith('/')` is embedded as an error.  On success the result is the
destination directory together with the combined store that
`combined_props.write()` persists there. -/
def fetcherCall (exp_dir : String) (eval_dir : Option String)
    (runDirs : List RunDir) (dest0 : Store) : Except String (String × Store) :=
  if pyEndsWith exp_dir "/" then
    .error "AssertionError: exp_dir must not end with a slash"
  else
    (fetchLoop (sortRunDirs runDirs) dest0).map
      (fun s => (evalDirOf exp_dir eval_dir, s))

/-! ### Grid environments (`lab/environments.py`)

`OracleGridEngineEnvironment` and its step chain.  A `Step` is embedded by
the two attributes the grid code reads: its `name` and its `_funcname` (a
step is a run step iff `_funcname == 'run'`). -/

/-- One pipeline step (`lab.steps.Step` as seen by `environments.py`). -/
structure Step : Type where
  name : String
  funcname : String
deriving DecidableEq

/-- The experiment data and environment configuration the grid code reads.
`numRunsExp` is `len(self.exp.runs)`; `cwd`, `script` and `scriptArgs` stand
for the ambient process state (`os.getcwd()`, `sys.argv[0]`, and the result
of `_get_script_args()`) used by ancillary job bodies. -/
structure GridEnv : Type where
  expName : String
  expSteps : List Step
  numRunsExp : Nat
  expPath : String
  preprocessPath : String
  maxTasks : Option Nat
  runsPerTask : Nat
  randomize : Bool
  email : Option String
  cwd : String
  script : String
  scriptArgs : List String

/-- `get_job_prefix` from `environments.py` (named `jobNameHead` here): the
experiment name gets a `'j'` prepended when it starts with a digit, and a
`'-'` appended.  The Python `assert exp_name` is the `none` case.  Python's
unicode `isdigit` is modelled by ASCII `Char.isDigit`. -/
def jobNameHead (exp_name : String) : Option String :=
  match exp_name.data with
  | [] => none
  | c :: _ => some ((if c.isDigit then "j" else "") ++ exp_name ++ "-")

/-- Python `'%02d' % n` for a natural number: zero-padded to width two. -/
def pct02d (n : Nat) : String :=
  if n < 10 then "0" ++ Nat.repr n else Nat.repr n

/-- `self.exp.steps.index(step)`: the index of the first occurrence.  Python
raises `ValueError` when the step is absent; `List.findIdx` then returns the
length, a case no theorem below relies on. -/
def stepIndex (steps : List Step) (s : Step) : Nat :=
  steps.findIdx (fun t => decide (t = s))

/-- `_get_job_name`: `'%s%02d-%s' % (prefix, index + 1, step.name)`. -/
def get_job_name (env : GridEnv) (step : Step) : Option String :=
  (jobNameHead env.expName).map
    (fun h => h ++ pct02d (stepIndex env.expSteps step + 1) ++ "-" ++ step.name)

/-- `int(math.ceil(a / float(b)))` for naturals, modelled as exact ceiling
division (exact at the magnitudes a grid experiment reaches). -/
def ceilDivPy (a b : Nat) : Nat :=
  (a + b - 1) / b

/-- The message of the capacity check in `_get_num_runs`:
`'You are trying to submit a job with %d tasks, but only %d are allowed.'`. -/
def capacityMsg (requested allowed : Nat) : String :=
  "You are trying to submit a job with " ++ Nat.repr requested ++
    " tasks, but only " ++ Nat.repr allowed ++ " are allowed."

/-- `_get_num_runs`: the task count for a run step, with the `MAX_TASKS`
capacity check.  `MAX_TASKS = float('inf')` of the base class is `none`;
`logging.critical` aborts (see the file header), embedded as the error. -/
def get_num_runs (env : GridEnv) : Except String Nat :=
  let n := ceilDivPy env.numRunsExp env.runsPerTask
  match env.maxTasks with
  | none => .ok n
  | some m => if n > m then .error (capacityMsg n m) else .ok n

/-- `_get_num_tasks`: a run step expands into `_get_num_runs()` task-array
slots, any other step into a single task. -/
def get_num_tasks (env : GridEnv) (step : Step) : Except String Nat :=
  if step.funcname = "run" then get_num_runs env else .ok 1

/-- `[str(i + 1) for i in xrange(num_tasks)]`: the run ids `"1" .. "n"`. -/
def taskIds (n : Nat) : List String :=
  (List.range n).map (fun i => Nat.repr (i + 1))

/-- Fisher-Yates style selection shuffle with an explicit source of
randomness, bounded by a fuel argument for structural recursion. -/
def pyShuffleAux {α : Type} : Nat → List Nat → List α → List α
  | 0, _, l => l
  | _ + 1, _, [] => []
  | _ + 1, [], l => l
  | fuel + 1, d :: ds, a :: t =>
    let l := a :: t
    let j : Fin l.length := ⟨d % l.length, Nat.mod_lt _ (Nat.succ_pos t.length)⟩
    l.get j :: pyShuffleAux fuel ds (l.eraseIdx j)

/-- Python's `random.shuffle` (standard library, external to this
repository), modelled at its documented contract: it rearranges the list
into a permutation selected by the random source `draws`. -/
def pyShuffle {α : Type} (draws : List Nat) (l : List α) : List α :=
  pyShuffleAux l.length draws l

/-- The `run_ids` parameter `_get_main_job_body` embeds into the body: the
shuffled id list when `randomize_task_order` is set, and nothing (the empty
`''` default) otherwise.  The textual parameter is the space-joined list;
the list form is kept since joining token lists is injective. -/
def runIdsField (randomize : Bool) (draws : List Nat) (n : Nat) : List String :=
  if randomize then pyShuffle draws (taskIds n) else []

/-- `_get_main_job_body`, reduced to the run-id list it embeds: the task
count is `_get_num_runs()` (which aborts on a capacity violation) and the
embedded ids are `runIdsField`. -/
def get_main_job_body_ids (env : GridEnv) (draws : List Nat) :
    Except String (List String) :=
  (get_num_runs env).map (fun n => runIdsField env.randomize draws n)

/-- Modelled from the spec: `data/grid-job-body-template` is not under
`src/`; per the spec the body "maps each task slot to one Run Descriptor
id", using the embedded id list when one is present and the slot's own index
otherwise.  This is the slot→run mapping of the generated body. -/
def bodySlotIds (field : List String) (numTasks : Nat) : List String :=
  if field.isEmpty then taskIds numTasks else field

/-! ### The submission loop (`OracleGridEngineEnvironment.run_steps`)

`run_steps` is embedded as a trace-producing state machine.  The state holds
the dependency anchor (`prev_job_name`), the set of files that exist (the
marker files matter), and an oracle of answers for confirmation prompts.
Events record, in program order, every prompt, file creation (`open(p, 'w')`
creates or truncates the file before any content is written), file write,
external command, and critical log.  `exp.build(..., dry_run=True)` touches
only experiment internals outside this model and is a no-op here. -/

/-- An observable effect of the submission loop, in program order. -/
inductive Event : Type
  | prompt (msg : String)
  | createFile (path : String)
  | writeFile (path : String) (content : String)
  | runCommand (cmd : List String)
  | criticalLog (msg : String)
deriving DecidableEq

/-- The loop state: the previous job name (dependency anchor), the existing
files, and the remaining answers of the interactive user (`true` = yes). -/
structure LoopState : Type where
  prevJob : Option String
  fs : List String
  answers : List Bool
deriving DecidableEq

/-- The prompt of `tools.confirm_or_abort` in `run_steps`. -/
def confirmMsg (submittedFile : String) : String :=
  "The file \"" ++ submittedFile ++ "\" already exists so it seems the " ++
    "experiment has already been submitted. Are you sure you want to " ++
    "submit it again?"

/-- The content written to the `submitted` marker file. -/
def markerText : String :=
  "This file is created when the experiment is submitted to the queue."

/-- The job directory of a step: the preprocess experiment path for the
`run-preprocess-exp` step, the experiment path otherwise. -/
def jobDirOf (env : GridEnv) (step : Step) : String :=
  if step.name = "run-preprocess-exp" then env.preprocessPath else env.expPath

/-- The `#$ -m` notification clause of the header: an end-of-experiment
mail for the last step when an email is configured, suppressed otherwise. -/
def notificationOf (env : GridEnv) (isLast : Bool) : String :=
  match env.email, isLast with
  | some addr, true => "#$ -M " ++ addr ++ "\n#$ -m e"
  | _, _ => "#$ -m n"

/-- Modelled from the spec: `data/grid-job-header-template` is not under
`src/`; per the spec the header renders the job parameters verbatim.  The
embedding renders the name, the task count and the notification clause; the
parameters no claim mentions (queue, priority, host spec, log files, extra
options) are elided from the rendering. -/
def headerText (jobName : String) (numTasks : Nat) (notification : String) : String :=
  "#$ -N " ++ jobName ++ "\n#$ -t 1-" ++ Nat.repr numTasks ++ "\n" ++ notification

/-- `_get_job_header`: compute the job parameters (the task count aborts on
a capacity violation) and render the header. -/
def get_job_header (env : GridEnv) (step : Step) (jobName : String)
    (isLast : Bool) : Except String String :=
  (get_num_tasks env step).map
    (fun nt => headerText jobName nt (notificationOf env isLast))

/-- The run-step body rendering: the task count and the space-joined embedded
run-id field of `data/grid-job-body-template` (modelled from the spec, see
`bodySlotIds` for its slot→run reading). -/
def bodyText (numTasks : Nat) (field : List String) : String :=
  "NUM_TASKS=" ++ Nat.repr numTasks ++ "\nRUN_IDS=(" ++
    String.intercalate " " field ++ ")"

/-- `_get_job_body`: a task-array body for a run step, a re-invocation body
(`cd cwd; python script args step_name`) for an ancillary step. -/
def get_job_body (env : GridEnv) (draws : List Nat) (step : Step) :
    Except String String :=
  if step.funcname = "run" then
    (get_num_runs env).map
      (fun n => bodyText n (runIdsField env.randomize draws n))
  else
    .ok ("cd " ++ env.cwd ++ "\npython " ++ env.script ++ " " ++
      String.intercalate " " env.scriptArgs ++ " " ++ step.name ++ "\n")

/-- `_get_job`: header, blank line, body.  The header is computed first, so
a capacity violation surfaces there. -/
def get_job (env : GridEnv) (draws : List Nat) (step : Step)
    (jobName : String) (isLast : Bool) : Except String String :=
  match get_job_header env step jobName isLast with
  | .error e => .error e
  | .ok h =>
    match get_job_body env draws step with
    | .error e => .error e
    | .ok b => .ok (h ++ "\n\n" ++ b)

/-- The submission part of one loop iteration, after the resubmission guard:
compute the job name (the assert inside `get_job_prefix` aborts on an empty
experiment name), open the job file, compute and write its content (a
critical capacity error aborts in between, leaving the file empty and
unwritten), invoke `qsub` with the dependency hold, and for a run step write
the `submitted` marker.  Returns the events, the successor state, and
whether the pipeline aborted. -/
def submitStep (env : GridEnv) (draws : List Nat) (total num : Nat)
    (st : LoopState) (step : Step) : List Event × LoopState × Bool :=
  let jobDir := jobDirOf env step
  let marker := jobDir ++ "/submitted"
  match get_job_name env step with
  | none => ([], st, true)
  | some jn =>
    let path := jobDir ++ "/" ++ jn
    match get_job env draws step jn (num = total) with
    | .error m =>
      ([Event.createFile path, Event.criticalLog m],
        { st with fs := path :: st.fs }, true)
    | .ok content =>
      let submit := ["qsub"] ++
        (match st.prevJob with | none => [] | some p => ["-hold_jid", p]) ++ [jn]
      if step.funcname = "run" then
        ([Event.createFile path, Event.writeFile path content,
            Event.runCommand submit, Event.createFile marker,
            Event.writeFile marker markerText],
          { prevJob := some jn, fs := marker :: path :: st.fs,
            answers := st.answers }, false)
      else
        ([Event.createFile path, Event.writeFile path content,
            Event.runCommand submit],
          { prevJob := some jn, fs := path :: st.fs,
            answers := st.answers }, false)

/-- One iteration of `run_steps`: for a run step whose `submitted` marker
exists, `tools.confirm_or_abort` prompts first.  When it returns (the user
confirmed), the loop body proceeds unconditionally to the submission part;
when the user declines it does not return, which unwinds the whole
`run_steps` invocation — embedded as the aborting branch (see the file
header).  Without a marker the submission part runs directly. -/
def processStep (env : GridEnv) (draws : List Nat) (total num : Nat)
    (st : LoopState) (step : Step) : List Event × LoopState × Bool :=
  let marker := jobDirOf env step ++ "/submitted"
  if step.funcname = "run" ∧ marker ∈ st.fs then
    let ans := st.answers.headD false
    let st1 := { st with answers := st.answers.tail }
    if ans then
      let r := submitStep env draws total num st1 step
      (Event.prompt (confirmMsg marker) :: r.1, r.2)
    else
      ([Event.prompt (confirmMsg marker)], st1, true)
  else
    submitStep env draws total num st step

/-- The loop of `run_steps` over the remaining steps, numbering them from
`num` (`enumerate(steps, start=1)` numbers the whole list from 1).  An abort
ends the trace; the final flag records whether the pipeline aborted. -/
def runStepsFrom (env : GridEnv) (draws : List Nat) (total : Nat) :
    Nat → LoopState → List Step → List Event × LoopState × Bool
  | _, st, [] => ([], st, false)
  | num, st, step :: rest =>
    let r := processStep env draws total num st step
    if r.2.2 then (r.1, r.2.1, true)
    else
      let r2 := runStepsFrom env draws total (num + 1) r.2.1 rest
      (r.1 ++ r2.1, r2.2.1, r2.2.2)

/-- `OracleGridEngineEnvironment.run_steps(steps)`: process the selected
steps in order, starting from the initial state `st0` (its `fs` holds the
files existing before submission, its `answers` the user's replies). -/
def run_steps (env : GridEnv) (draws : List Nat) (st0 : LoopState)
    (steps : List Step) : List Event × LoopState × Bool :=
  runStepsFrom env draws steps.length 1 st0 steps

/-! ### Derived notions used by the proofs -/

/-- Folding `setKey` over a list of key/value pairs: what the fetch loop does
to the combined store. -/
def foldSet {V : Type} (s : List (String × V)) (L : List (String × V)) :
    List (String × V) :=
  L.foldl (fun acc p => setKey acc p.1 p.2) s

/-- The value the pair list assigns to a key last, if any. -/
def lastVal {V : Type} (k : String) : List (String × V) → Option V
  | [] => none
  | p :: t =>
    match lastVal k t with
    | some v => some v
    | none => if p.1 = k then some p.2 else none

/-- The key/value pair a run directory contributes to the combined store, or
`none` when fetching it aborts. -/
def dirPair (d : RunDir) : Option (String × Props) :=
  match fetch_dir d with
  | .error _ => none
  | .ok (v, props) =>
    match joinRunId v with
    | .error _ => none
    | .ok k => some (k, props)

/-- The contributions of a directory list, defined when none aborts. -/
def dirPairs : List RunDir → Option (List (String × Props))
  | [] => some []
  | d :: ds =>
    match dirPair d, dirPairs ds with
    | some p, some ps => some (p :: ps)
    | _, _ => none

/-! ### Concrete instances used by individual claims -/

/-- First run directory of the spec's aggregation example: id `("a","1")`
and coverage 1. -/
def exampleRun1 : RunDir :=
  ⟨"exp/runs-00001-00100/00001",
    [("id", PVal.strList ["a", "1"]), ("coverage", PVal.num 1)]⟩

/-- Second run directory of the example: id `("a","2")` and coverage 1. -/
def exampleRun2 : RunDir :=
  ⟨"exp/runs-00001-00100/00002",
    [("id", PVal.strList ["a", "2"]), ("coverage", PVal.num 1)]⟩

/-- Third run directory of the example: id `("b","1")` and coverage 1. -/
def exampleRun3 : RunDir :=
  ⟨"exp/runs-00001-00100/00003",
    [("id", PVal.strList ["b", "1"]), ("coverage", PVal.num 1)]⟩

/-- The combined store the example produces: each run's full property store
under its joined id key. -/
def exampleCombined : Store :=
  [("a-1", exampleRun1.props), ("a-2", exampleRun2.props),
    ("b-1", exampleRun3.props)]

/-- A chain of one hundred pairwise distinct steps (`s0` … `s97`, then `y`
and `z`), long enough to reach three-digit chain positions. -/
def hundredSteps : List Step :=
  ((List.range 98).map (fun i => ⟨"s" ++ Nat.repr i, "build"⟩)) ++
    [⟨"y", "build"⟩, ⟨"z", "build"⟩]

/-- An experiment over `hundredSteps`, used to exercise job naming at chain
positions 99 and 100. -/
def hundredEnv : GridEnv :=
  { expName := "foo", expSteps := hundredSteps, numRunsExp := 0,
    expPath := "/e", preprocessPath := "/e-p", maxTasks := none,
    runsPerTask := 1, randomize := true, email := none, cwd := "/w",
    script := "exp.py", scriptArgs := [] }

/-- A small grid environment with three runs and no task ceiling. -/
def envThreeRuns : GridEnv :=
  { expName := "exp", expSteps := [⟨"run", "run"⟩, ⟨"report", "report"⟩],
    numRunsExp := 3, expPath := "/e", preprocessPath := "/e-p",
    maxTasks := none, runsPerTask := 1, randomize := true, email := none,
    cwd := "/w", script := "exp.py", scriptArgs := [] }

/-- The spec's three-step example chain. -/
def fooSteps : List Step :=
  [⟨"build", "build"⟩, ⟨"run", "run"⟩, ⟨"report", "report"⟩]

/-- An experiment named `foo` over the three-step example chain. -/
def fooEnv : GridEnv :=
  { expName := "foo", expSteps := fooSteps, numRunsExp := 3,
    expPath := "/e", preprocessPath := "/e-p", maxTasks := none,
    runsPerTask := 1, randomize := true, email := none, cwd := "/w",
    script := "exp.py", scriptArgs := [] }

/-- A grid environment whose five runs exceed its task ceiling of two. -/
def envCap : GridEnv :=
  { expName := "exp", expSteps := [⟨"run", "run"⟩, ⟨"report", "report"⟩],
    numRunsExp := 5, expPath := "/e", preprocessPath := "/e-p",
    maxTasks := some 2, runsPerTask := 1, randomize := false, email := none,
    cwd := "/w", script := "exp.py", scriptArgs := [] }

/-- The claim's 2001-run experiment at one run per task. -/
def env2001 : GridEnv :=
  { envThreeRuns with numRunsExp := 2001 }

/-- The claim's 2001-run experiment at a hundred runs per task. -/
def env2001Batch : GridEnv :=
  { env2001 with runsPerTask := 100 }

/-! ### Lemmas about the ordered store -/

/-- `any` finds a key exactly when it is among the keys. -/
theorem any_eq_mem_keysOf {V : Type} (s : List (String × V)) (k : String) :
    (s.any (fun p => p.1 = k)) = true ↔ k ∈ keysOf s := by
  simp [keysOf, List.any_eq_true, List.mem_map]

/-- Setting an existing key leaves the key sequence unchanged. -/
theorem keysOf_setKey_of_mem {V : Type} (s : List (String × V)) (k : String)
    (v : V) (h : k ∈ keysOf s) : keysOf (setKey s k v) = keysOf s := by
  unfold setKey
  rw [if_pos ((any_eq_mem_keysOf s k).mpr h)]
  unfold keysOf
  rw [List.map_map]
  apply List.map_congr_left
  intro p _
  by_cases hk : p.1 = k
  · simp [hk]
  · simp [hk]

/-- Setting a fresh key appends it. -/
theorem setKey_of_not_mem {V : Type} (s : List (String × V)) (k : String)
    (v : V) (h : k ∉ keysOf s) : setKey s k v = s ++ [(k, v)] := by
  unfold setKey
  rw [if_neg]
  intro hc
  exact h ((any_eq_mem_keysOf s k).mp hc)

/-- A key that is not present looks up to `none`. -/
theorem getVal_eq_none {V : Type} (k : String) :
    ∀ s : List (String × V), k ∉ keysOf s → getVal k s = none := by
  intro s
  induction s with
  | nil => intro _; rfl
  | cons p t ih =>
    intro h
    have hne : p.1 ≠ k := by
      intro he
      exact h (by simp [keysOf, he])
    have ht : k ∉ keysOf t := by
      intro hm
      exact h (by simp [keysOf] at hm ⊢; exact Or.inr hm)
    simp [getVal, hne, ih ht]

/-- Looking up `k` after replacing every `k`-keyed pair finds the new value. -/
theorem getVal_map_set {V : Type} (k : String) (v : V) :
    ∀ t : List (String × V), k ∈ keysOf t →
      getVal k (t.map (fun p => if p.1 = k then (k, v) else p)) = some v := by
  intro t
  induction t with
  | nil => intro h; simp [keysOf] at h
  | cons p t ih =>
    intro h
    by_cases hp : p.1 = k
    · simp [getVal, hp]
    · have ht : k ∈ keysOf t := by
        simp [keysOf] at h
        rcases h with h | h
        · exact absurd h.symm hp
        · simpa [keysOf, List.mem_map] using h
      simp only [List.map_cons, if_neg hp]
      rw [getVal]
      simp only [if_neg hp]
      exact ih ht

/-- Looking up `k` in a store with `(k, v)` appended behind keys other than
`k` finds `v`. -/
theorem getVal_append_single {V : Type} (k : String) (v : V) :
    ∀ s : List (String × V), k ∉ keysOf s → getVal k (s ++ [(k, v)]) = some v := by
  intro s
  induction s with
  | nil => intro _; simp [getVal]
  | cons p t ih =>
    intro h
    have hne : p.1 ≠ k := by
      intro he
      exact h (by simp [keysOf, he])
    have ht : k ∉ keysOf t := by
      intro hm
      exact h (by simp [keysOf, List.mem_map] at hm ⊢; right; exact hm)
    simp only [List.cons_append]
    rw [getVal]
    simp only [if_neg hne]
    exact ih ht

/-- After setting a key, looking it up returns the new value. -/
theorem getVal_setKey_self {V : Type} (k : String) (v : V)
    (s : List (String × V)) : getVal k (setKey s k v) = some v := by
  by_cases h : k ∈ keysOf s
  · unfold setKey
    rw [if_pos ((any_eq_mem_keysOf s k).mpr h)]
    exact getVal_map_set k v s h
  · rw [setKey_of_not_mem s k v h]
    exact getVal_append_single k v s h

/-- Setting one key does not change the lookup of another. -/
theorem getVal_setKey_ne {V : Type} (k k2 : String) (v : V) (hne : k2 ≠ k) :
    ∀ s : List (String × V), getVal k2 (setKey s k v) = getVal k2 s := by
  intro s
  by_cases h : k ∈ keysOf s
  · unfold setKey
    rw [if_pos ((any_eq_mem_keysOf s k).mpr h)]
    clear h
    induction s with
    | nil => rfl
    | cons p t ih =>
      by_cases hp : p.1 = k
      · simp only [List.map_cons, if_pos hp]
        rw [getVal, getVal]
        have : k ≠ k2 := fun he => hne he.symm
        simp only [if_neg this, if_neg (hp ▸ this)]
        exact ih
      · simp only [List.map_cons, if_neg hp]
        rw [getVal, getVal]
        by_cases hp2 : p.1 = k2
        · simp [hp2]
        · simp only [if_neg hp2]
          exact ih
  · rw [setKey_of_not_mem s k v h]
    clear h
    induction s with
    | nil =>
      simp only [List.nil_append]
      have hk : k ≠ k2 := Ne.symm hne
      simp [getVal, hk]
    | cons p t ih =>
      simp only [List.cons_append]
      rw [getVal, getVal]
      by_cases hp2 : p.1 = k2
      · simp [hp2]
      · simp only [if_neg hp2]
        exact ih

/-- `setKey` keeps the keys duplicate-free. -/
theorem nodup_keysOf_setKey {V : Type} (s : List (String × V)) (k : String)
    (v : V) (h : (keysOf s).Nodup) : (keysOf (setKey s k v)).Nodup := by
  by_cases hm : k ∈ keysOf s
  · rw [keysOf_setKey_of_mem s k v hm]
    exact h
  · rw [setKey_of_not_mem s k v hm]
    unfold keysOf
    rw [List.map_append]
    rw [List.nodup_append]
    refine ⟨h, List.nodup_singleton k, ?_⟩
    intro a ha hb
    simp only [List.map_cons, List.map_nil, List.mem_singleton] at hb
    exact hm (hb ▸ ha)

/-- Two stores with the same duplicate-free key sequence and the same
lookups are equal. -/
theorem store_ext {V : Type} :
    ∀ s t : List (String × V), keysOf s = keysOf t → (keysOf s).Nodup →
      (∀ k, getVal k s = getVal k t) → s = t := by
  intro s
  induction s with
  | nil =>
    intro t hk _ _
    have : keysOf t = [] := hk.symm
    unfold keysOf at this
    exact (List.map_eq_nil_iff.mp this).symm
  | cons p s2 ih =>
    intro t hk hnd hv
    cases t with
    | nil => simp [keysOf] at hk
    | cons q t2 =>
      simp only [keysOf, List.map_cons, List.cons.injEq] at hk
      obtain ⟨hk1, hk2⟩ := hk
      have hpq : p.2 = q.2 := by
        have h1 : getVal p.1 (p :: s2) = some p.2 := by rw [getVal]; simp
        have h2 : getVal p.1 (q :: t2) = some q.2 := by
          rw [getVal]; simp [hk1.symm]
        have := (h1.symm.trans (hv p.1)).trans h2
        exact Option.some.injEq _ _ ▸ this.symm ▸ rfl
      have hnd2 : (keysOf s2).Nodup := by
        simpa [keysOf] using hnd.of_cons
      have hnot : p.1 ∉ keysOf s2 := by
        simp only [keysOf, List.map_cons, List.nodup_cons] at hnd
        exact hnd.1
      have hval : ∀ k, getVal k s2 = getVal k t2 := by
        intro k
        by_cases hke : p.1 = k
        · have hnott : k ∉ keysOf t2 := by
            unfold keysOf
            rw [← hk2]
            exact hke ▸ hnot
          rw [getVal_eq_none k s2 (hke ▸ hnot), getVal_eq_none k t2 hnott]
        · have := hv k
          rw [getVal, getVal] at this
          simp only [if_neg hke, if_neg (hk1 ▸ hke)] at this
          exact this
      have hpq1 : p = q := by
        apply Prod.ext hk1
        exact hpq
      rw [hpq1, ih t2 hk2 hnd2 hval]

/-- The key just set is among the keys. -/
theorem mem_keysOf_setKey_self {V : Type} (s : List (String × V)) (k : String)
    (v : V) : k ∈ keysOf (setKey s k v) := by
  by_cases h : k ∈ keysOf s
  · rw [keysOf_setKey_of_mem s k v h]
    exact h
  · rw [setKey_of_not_mem s k v h]
    unfold keysOf
    rw [List.map_append]
    simp

/-- `setKey` never removes a key. -/
theorem mem_keysOf_setKey_of_mem {V : Type} (s : List (String × V))
    (k k2 : String) (v : V) (h : k2 ∈ keysOf s) : k2 ∈ keysOf (setKey s k v) := by
  by_cases hm : k ∈ keysOf s
  · rw [keysOf_setKey_of_mem s k v hm]
    exact h
  · rw [setKey_of_not_mem s k v hm]
    unfold keysOf
    rw [List.map_append]
    exact List.mem_append_left _ h

/-- The fold never removes a key. -/
theorem mem_keysOf_foldSet_of_mem {V : Type} (L : List (String × V)) :
    ∀ s k, k ∈ keysOf s → k ∈ keysOf (foldSet s L) := by
  induction L with
  | nil => intro s k h; exact h
  | cons p L ih =>
    intro s k h
    exact ih (setKey s p.1 p.2) k (mem_keysOf_setKey_of_mem s p.1 k p.2 h)

/-- Every key that occurs in the pair list ends up among the result's keys. -/
theorem mem_keysOf_foldSet {V : Type} (L : List (String × V)) :
    ∀ s p, p ∈ L → p.1 ∈ keysOf (foldSet s L) := by
  induction L with
  | nil => intro s p h; exact absurd h (List.not_mem_nil p)
  | cons q L ih =>
    intro s p h
    rcases List.mem_cons.mp h with h | h
    · subst h
      exact mem_keysOf_foldSet_of_mem L (setKey s p.1 p.2) p.1
        (mem_keysOf_setKey_self s p.1 p.2)
    · exact ih (setKey s q.1 q.2) p h

/-- When every key of the pair list is already present, the fold leaves the
key sequence unchanged. -/
theorem keysOf_foldSet_stable {V : Type} (L : List (String × V)) :
    ∀ s, (∀ p ∈ L, p.1 ∈ keysOf s) → keysOf (foldSet s L) = keysOf s := by
  induction L with
  | nil => intro s _; rfl
  | cons q L ih =>
    intro s h
    have hq : q.1 ∈ keysOf s := h q (List.mem_cons_self q L)
    have hkeys : keysOf (setKey s q.1 q.2) = keysOf s :=
      keysOf_setKey_of_mem s q.1 q.2 hq
    have hrest : ∀ p ∈ L, p.1 ∈ keysOf (setKey s q.1 q.2) := by
      intro p hp
      rw [hkeys]
      exact h p (List.mem_cons_of_mem q hp)
    calc keysOf (foldSet (setKey s q.1 q.2) L) = keysOf (setKey s q.1 q.2) :=
          ih (setKey s q.1 q.2) hrest
      _ = keysOf s := hkeys

/-- The fold keeps the keys duplicate-free. -/
theorem nodup_keysOf_foldSet {V : Type} (L : List (String × V)) :
    ∀ s, (keysOf s).Nodup → (keysOf (foldSet s L)).Nodup := by
  induction L with
  | nil => intro s h; exact h
  | cons q L ih =>
    intro s h
    exact ih (setKey s q.1 q.2) (nodup_keysOf_setKey s q.1 q.2 h)

/-- Lookup after the fold: the last value the pair list assigns to the key,
or the original value when the list never assigns it. -/
theorem getVal_foldSet {V : Type} (L : List (String × V)) :
    ∀ s k, getVal k (foldSet s L) =
      match lastVal k L with
      | some v => some v
      | none => getVal k s := by
  induction L with
  | nil => intro s k; rfl
  | cons q L ih =>
    intro s k
    have : foldSet s (q :: L) = foldSet (setKey s q.1 q.2) L := rfl
    rw [this, ih (setKey s q.1 q.2) k]
    cases hL : lastVal k L with
    | some v => simp [lastVal, hL]
    | none =>
      by_cases hk : q.1 = k
      · subst hk
        simp [lastVal, hL, getVal_setKey_self]
      · have hne : k ≠ q.1 := fun he => hk he.symm
        simp [lastVal, hL, hk, getVal_setKey_ne q.1 k q.2 hne]

/-- Re-folding the same pair list over its own result changes nothing: every
key is already present with its final value. -/
theorem foldSet_idem {V : Type} (L : List (String × V)) :
    foldSet (foldSet [] L) L = foldSet [] L := by
  apply store_ext
  · apply keysOf_foldSet_stable
    intro p hp
    exact mem_keysOf_foldSet L [] p hp
  · rw [keysOf_foldSet_stable L (foldSet [] L)
      (fun p hp => mem_keysOf_foldSet L [] p hp)]
    exact nodup_keysOf_foldSet L [] List.nodup_nil
  · intro k
    rw [getVal_foldSet L (foldSet [] L) k, getVal_foldSet L [] k]
    cases hL : lastVal k L with
    | some v => simp
    | none => simp

/-- A directory with a contribution makes the loop set exactly that pair. -/
theorem fetchStep_of_dirPair (d : RunDir) (k : String) (props : Props)
    (h : dirPair d = some (k, props)) (acc : Store) :
    fetchStep acc d = .ok (setKey acc k props) := by
  unfold dirPair at h
  unfold fetchStep
  cases hf : fetch_dir d with
  | error e => rw [hf] at h; exact absurd h (by simp)
  | ok vp =>
    obtain ⟨v, props0⟩ := vp
    rw [hf] at h
    cases hj : joinRunId v with
    | error e =>
      simp only [hj] at h
      exact absurd h (by simp)
    | ok k2 =>
      simp only [hj] at h
      simp only [Option.some.injEq, Prod.mk.injEq] at h
      show (match joinRunId v with
        | Except.error e => Except.error e
        | Except.ok k => Except.ok (setKey acc k props0)) =
          Except.ok (setKey acc k props)
      rw [hj, h.1, h.2]

/-- The loop on directories that all contribute is the fold of their pairs. -/
theorem fetchLoop_eq_foldSet :
    ∀ (ds : List RunDir) (L : List (String × Props)), dirPairs ds = some L →
      ∀ acc, fetchLoop ds acc = .ok (foldSet acc L) := by
  intro ds
  induction ds with
  | nil =>
    intro L h acc
    unfold dirPairs at h
    simp only [Option.some.injEq] at h
    rw [← h]
    rfl
  | cons d ds ih =>
    intro L h acc
    unfold dirPairs at h
    cases hp : dirPair d with
    | none => rw [hp] at h; exact absurd h (by simp)
    | some p =>
      rw [hp] at h
      cases hps : dirPairs ds with
      | none => rw [hps] at h; exact absurd h (by simp)
      | some ps =>
        rw [hps] at h
        simp only [Option.some.injEq] at h
        unfold fetchLoop
        rw [fetchStep_of_dirPair d p.1 p.2 (by rw [hp]) acc]
        show fetchLoop ds (setKey acc p.1 p.2) = Except.ok (foldSet acc L)
        rw [ih ps hps (setKey acc p.1 p.2), ← h]
        rfl

/-- A loop that succeeds had a contribution from every directory. -/
theorem fetchLoop_ok_dirPairs :
    ∀ (ds : List RunDir) (acc r : Store), fetchLoop ds acc = .ok r →
      ∃ L, dirPairs ds = some L := by
  intro ds
  induction ds with
  | nil => intro acc r _; exact ⟨[], rfl⟩
  | cons d ds ih =>
    intro acc r h
    unfold fetchLoop at h
    cases hs : fetchStep acc d with
    | error e => rw [hs] at h; exact absurd h (by simp)
    | ok acc2 =>
      rw [hs] at h
      obtain ⟨L, hL⟩ := ih acc2 r h
      have hp : ∃ p, dirPair d = some p := by
        unfold fetchStep at hs
        unfold dirPair
        cases hf : fetch_dir d with
        | error e => rw [hf] at hs; exact absurd hs (by simp)
        | ok vp =>
          rw [hf] at hs
          obtain ⟨v, props0⟩ := vp
          cases hj : joinRunId v with
          | error e => simp only [hj] at hs; exact absurd hs (by simp)
          | ok k => exact ⟨(k, props0), by simp [hj]⟩
      obtain ⟨p, hp⟩ := hp
      exact ⟨p :: L, by unfold dirPairs; rw [hp, hL]⟩

/-- A run directory with a missing or falsy id makes `fetch_dir` abort with
the integrity error naming its property file. -/
theorem fetch_dir_error_of_falsy (d : RunDir)
    (h : pyFalsy (getVal "id" d.props) = true) :
    fetch_dir d = .error (criticalIdMsg (propFileOf d)) := by
  unfold fetch_dir
  cases hg : getVal "id" d.props with
  | none => rfl
  | some v =>
    rw [hg] at h
    simp [h]

/-- The loop aborts at the first directory with a missing id, with the error
naming that directory, no matter what came before or follows. -/
theorem fetchLoop_error_at_bad :
    ∀ (pre : List RunDir) (bad : RunDir) (post : List RunDir) (acc : Store),
      (∀ d ∈ pre, (dirPair d).isSome) →
      pyFalsy (getVal "id" bad.props) = true →
      fetchLoop (pre ++ bad :: post) acc =
        .error (criticalIdMsg (propFileOf bad)) := by
  intro pre
  induction pre with
  | nil =>
    intro bad post acc _ hbad
    have hstep : fetchStep acc bad = .error (criticalIdMsg (propFileOf bad)) := by
      unfold fetchStep
      rw [fetch_dir_error_of_falsy bad hbad]
    simp [fetchLoop, hstep]
  | cons d pre ih =>
    intro bad post acc hpre hbad
    have hd : (dirPair d).isSome := hpre d (List.mem_cons_self d pre)
    obtain ⟨p, hp⟩ := Option.isSome_iff_exists.mp hd
    have hstep := fetchStep_of_dirPair d p.1 p.2 (by rw [hp]) acc
    have hcons : (d :: pre) ++ bad :: post = d :: (pre ++ bad :: post) := rfl
    rw [hcons]
    simp only [fetchLoop, hstep]
    exact ih bad post (setKey acc p.1 p.2)
      (fun e he => hpre e (List.mem_cons_of_mem d he)) hbad

/-- C5: running the aggregator twice against an unchanged source
run-directory tree is idempotent.  If the first invocation (with no combined
store yet at the destination) succeeds and persists the combined store `R1`,
the second invocation — which loads `R1` back from the destination before
merging — persists exactly the same store to the same destination, so the
written files are byte-identical. -/
theorem aggregation_idempotent (exp_dir : String) (eval_dir : Option String)
    (runDirs : List RunDir) (ev : String) (R1 : Store)
    (h : fetcherCall exp_dir eval_dir runDirs [] = .ok (ev, R1)) :
    fetcherCall exp_dir eval_dir runDirs R1 = .ok (ev, R1) := by
  unfold fetcherCall at h ⊢
  by_cases he : pyEndsWith exp_dir "/" = true
  · rw [if_pos he] at h
    exact absurd h (by simp)
  · rw [if_neg he] at h ⊢
    cases hl : fetchLoop (sortRunDirs runDirs) [] with
    | error e =>
      rw [hl] at h
      simp [Except.map] at h
    | ok r =>
      rw [hl] at h
      simp only [Except.map, Except.ok.injEq, Prod.mk.injEq] at h
      obtain ⟨hev, hr⟩ := h
      obtain ⟨L, hL⟩ := fetchLoop_ok_dirPairs (sortRunDirs runDirs) [] r hl
      have h1 : fetchLoop (sortRunDirs runDirs) [] = .ok (foldSet [] L) :=
        fetchLoop_eq_foldSet (sortRunDirs runDirs) L hL []
      rw [hl] at h1
      have hrfold : r = foldSet [] L := by
        simpa using h1
      have h2 : fetchLoop (sortRunDirs runDirs) R1 = .ok (foldSet R1 L) :=
        fetchLoop_eq_foldSet (sortRunDirs runDirs) L hL R1
      rw [h2]
      have hR : foldSet R1 L = R1 := by
        rw [← hr, hrfold]
        exact foldSet_idem L
      rw [hR]
      simp [Except.map, hev]

/-- C5 witness: a concrete one-run tree, aggregated twice. -/
theorem aggregation_idempotent_witness :
    fetcherCall "exp" none [exampleRun1] [("a-1", exampleRun1.props)] =
      .ok ("exp-eval", [("a-1", exampleRun1.props)]) :=
  aggregation_idempotent "exp" none [exampleRun1] "exp-eval"
    [("a-1", exampleRun1.props)] rfl

/-- C2: a run directory whose property file has no `id` key (or a falsy one)
makes aggregation abort with the fatal integrity error naming that
directory's property file, and the call produces no combined store at all —
the combined store is persisted only after the whole loop completes, so an
abort persists nothing.  `pre`/`post` split the sorted directory list at the
first offending directory. -/
theorem missing_id_aborts_aggregation (exp_dir : String)
    (eval_dir : Option String) (runDirs pre post : List RunDir)
    (bad : RunDir) (dest0 : Store)
    (hnp : pyEndsWith exp_dir "/" = false)
    (hs : sortRunDirs runDirs = pre ++ bad :: post)
    (hpre : ∀ d ∈ pre, (dirPair d).isSome)
    (hbad : pyFalsy (getVal "id" bad.props) = true) :
    fetcherCall exp_dir eval_dir runDirs dest0 =
        .error (criticalIdMsg (propFileOf bad)) ∧
      criticalIdMsg (propFileOf bad) =
        "id is not set in " ++ (bad.path ++ ("/properties" ++ ".")) := by
  constructor
  · unfold fetcherCall
    rw [if_neg (by simp [hnp])]
    rw [hs, fetchLoop_error_at_bad pre bad post dest0 hpre hbad]
    rfl
  · simp [criticalIdMsg, propFileOf, String.append_assoc]

/-- C2 witness: one id-less run directory aborts a concrete aggregation. -/
theorem missing_id_aborts_aggregation_witness :
    fetcherCall "exp" none [RunDir.mk "exp/runs-00001-00100/00001" []] [] =
        .error (criticalIdMsg (propFileOf
          (RunDir.mk "exp/runs-00001-00100/00001" []))) ∧
      criticalIdMsg (propFileOf (RunDir.mk "exp/runs-00001-00100/00001" [])) =
        "id is not set in " ++ ("exp/runs-00001-00100/00001" ++
          ("/properties" ++ ".")) :=
  missing_id_aborts_aggregation "exp" none
    [RunDir.mk "exp/runs-00001-00100/00001" []] []
    [] (RunDir.mk "exp/runs-00001-00100/00001" []) [] rfl rfl
    (fun d hd => absurd hd (List.not_mem_nil d)) rfl

/-- C10: `Fetcher.__call__` asserts that the source experiment path does not
end with `'/'`, rejecting such paths; a path passing the assert, with no
destination given, gets the default destination `exp_dir + '-eval'`. -/
theorem fetcher_slash_assert_and_default_eval (exp_dir : String)
    (eval_dir : Option String) (runDirs : List RunDir) (dest0 : Store) :
    (pyEndsWith exp_dir "/" = true →
      fetcherCall exp_dir eval_dir runDirs dest0 =
        .error "AssertionError: exp_dir must not end with a slash") ∧
    (pyEndsWith exp_dir "/" = false →
      ∀ ev s, fetcherCall exp_dir none runDirs dest0 = .ok (ev, s) →
        ev = exp_dir ++ "-eval") := by
  constructor
  · intro he
    unfold fetcherCall
    rw [if_pos he]
  · intro he ev s h
    unfold fetcherCall at h
    rw [if_neg (by simp [he])] at h
    cases hl : fetchLoop (sortRunDirs runDirs) dest0 with
    | error e =>
      rw [hl] at h
      simp [Except.map] at h
    | ok r =>
      rw [hl] at h
      simp only [Except.map, Except.ok.injEq, Prod.mk.injEq] at h
      rw [← h.1]
      rfl

/-- C10 witness: a trailing-slash path is rejected; without one and without
a destination the default destination is used. -/
theorem fetcher_slash_assert_and_default_eval_witness :
    fetcherCall "exp/" none [] [] =
        .error "AssertionError: exp_dir must not end with a slash" ∧
      "exp-eval" = "exp" ++ "-eval" :=
  ⟨(fetcher_slash_assert_and_default_eval "exp/" none [] []).1 rfl,
    (fetcher_slash_assert_and_default_eval "exp" none [] []).2 rfl
      "exp-eval" [] rfl⟩

/-- C6 counterexample: with the claim's three run directories, aggregation
succeeds, but the combined entry under `a-1` is the run's full property
store — it keeps the `id` key alongside `coverage` — so it is not the bare
store `{"coverage": 1}` the claim asserts each entry to be. -/
theorem aggregation_example_entry_keeps_id :
    fetcherCall "exp" none [exampleRun1, exampleRun2, exampleRun3] [] =
        .ok ("exp-eval", exampleCombined) ∧
      getVal "a-1" exampleCombined ≠ some [("coverage", PVal.num 1)] :=
  ⟨rfl, by decide⟩

/-- C6 amended: each aggregated run's property store is merged under the key
joining its id segments with '-': the example yields exactly three entries
keyed `a-1`, `a-2`, `b-1`, in that order, each entry being that run's full
property store, which contains `coverage = 1` alongside its `id`. -/
theorem aggregation_example_combined_store :
    fetcherCall "exp" none [exampleRun1, exampleRun2, exampleRun3] [] =
        .ok ("exp-eval", exampleCombined) ∧
      keysOf exampleCombined = ["a-1", "a-2", "b-1"] ∧
      getVal "a-1" exampleCombined = some exampleRun1.props ∧
      getVal "a-2" exampleCombined = some exampleRun2.props ∧
      getVal "b-1" exampleCombined = some exampleRun3.props ∧
      getVal "coverage" exampleRun1.props = some (PVal.num 1) ∧
      getVal "coverage" exampleRun2.props = some (PVal.num 1) ∧
      getVal "coverage" exampleRun3.props = some (PVal.num 1) :=
  ⟨rfl, rfl, rfl, rfl, rfl, rfl, rfl, rfl⟩

/-- C7: the number of task-array slots of a grid step is 1 for an ancillary
step, and `ceil(run_count / runs_per_task)` for a run step whenever that
count is within the task ceiling (beyond the ceiling the capacity check
aborts instead, see C1). -/
theorem task_array_sizes (env : GridEnv) (step : Step) :
    (step.funcname ≠ "run" → get_num_tasks env step = .ok 1) ∧
    (step.funcname = "run" →
      (env.maxTasks = none →
        get_num_tasks env step =
          .ok (ceilDivPy env.numRunsExp env.runsPerTask)) ∧
      (∀ m, env.maxTasks = some m →
        ceilDivPy env.numRunsExp env.runsPerTask ≤ m →
        get_num_tasks env step =
          .ok (ceilDivPy env.numRunsExp env.runsPerTask))) := by
  constructor
  · intro hne
    unfold get_num_tasks
    rw [if_neg hne]
  · intro hrun
    constructor
    · intro hmax
      unfold get_num_tasks
      rw [if_pos hrun]
      unfold get_num_runs
      rw [hmax]
    · intro m hmax hle
      unfold get_num_tasks
      rw [if_pos hrun]
      unfold get_num_runs
      rw [hmax]
      simp only
      rw [if_neg (by omega)]

/-- C7 witness: 2001 runs yield 2001 tasks at one run per task and 21 tasks
at a hundred runs per task; an ancillary step yields one task. -/
theorem task_array_sizes_witness :
    get_num_tasks env2001 ⟨"run", "run"⟩ = .ok 2001 ∧
      get_num_tasks env2001Batch ⟨"run", "run"⟩ = .ok 21 ∧
      get_num_tasks envThreeRuns ⟨"report", "report"⟩ = .ok 1 :=
  ⟨((task_array_sizes env2001 ⟨"run", "run"⟩).2 rfl).1 rfl,
    (((task_array_sizes env2001Batch ⟨"run", "run"⟩).2 rfl).1 rfl).trans rfl,
    (task_array_sizes envThreeRuns ⟨"report", "report"⟩).1 (by decide)⟩

/-- C9: for a non-empty experiment name whose first character is a digit the
job-name head is the name with `'j'` prepended and `'-'` appended; for a
name starting with a non-digit it is the name with `'-'` appended; in both
cases the head never begins with a digit. -/
theorem job_head_escapes_digit (name : String) (c : Char) (rest : List Char)
    (hd : name.data = c :: rest) :
    (c.isDigit = true → jobNameHead name = some ("j" ++ name ++ "-")) ∧
    (c.isDigit = false → jobNameHead name = some (name ++ "-")) ∧
    (∀ p, jobNameHead name = some p →
      ∃ d ds, p.data = d :: ds ∧ d.isDigit = false) := by
  have hhead : jobNameHead name =
      some ((if c.isDigit then "j" else "") ++ name ++ "-") := by
    unfold jobNameHead
    rw [hd]
  refine ⟨?_, ?_, ?_⟩
  · intro hdig
    simp [hhead, hdig]
  · intro hdig
    simp [hhead, hdig]
  · intro p hp
    rw [hhead] at hp
    simp only [Option.some.injEq] at hp
    cases hdig : c.isDigit with
    | true =>
      rw [hdig] at hp
      simp only [if_pos] at hp
      refine ⟨'j', (name ++ "-").data, ?_, by decide⟩
      rw [← hp]
      rw [String.data_append, String.data_append, String.data_append]
      rfl
    | false =>
      rw [hdig] at hp
      rw [if_neg (by simp)] at hp
      refine ⟨c, rest ++ ['-'], ?_, hdig⟩
      rw [← hp]
      rw [String.data_append, String.data_append]
      rw [hd]
      rfl

/-- C9 witness: `9exp` is escaped to `j9exp-`, `exp` stays `exp-`. -/
theorem job_head_escapes_digit_witness :
    jobNameHead "9exp" = some ("j" ++ "9exp" ++ "-") ∧
      jobNameHead "exp" = some ("exp" ++ "-") :=
  ⟨(job_head_escapes_digit "9exp" '9' ['e', 'x', 'p'] rfl).1 rfl,
    (job_head_escapes_digit "exp" 'e' ['x', 'p'] rfl).2.1 rfl⟩

/-- Pulling the selected element to the front is a permutation. -/
theorem get_cons_eraseIdx_perm {α : Type} :
    ∀ (l : List α) (i : Fin l.length), (l.get i :: l.eraseIdx i).Perm l := by
  intro l
  induction l with
  | nil => intro i; exact absurd i.2 (by simp)
  | cons a t ih =>
    intro i
    match i with
    | ⟨0, _⟩ => exact List.Perm.refl _
    | ⟨j + 1, hj⟩ =>
      have hjt : j < t.length := Nat.lt_of_succ_lt_succ hj
      have step : ((a :: t).get ⟨j + 1, hj⟩ :: (a :: t).eraseIdx (j + 1)) =
          t.get ⟨j, hjt⟩ :: a :: t.eraseIdx j := rfl
      rw [step]
      exact (List.Perm.swap a (t.get ⟨j, hjt⟩) (t.eraseIdx j)).trans
        ((ih ⟨j, hjt⟩).cons a)

/-- The fueled selection shuffle permutes its input. -/
theorem pyShuffleAux_perm {α : Type} :
    ∀ (fuel : Nat) (draws : List Nat) (l : List α),
      (pyShuffleAux fuel draws l).Perm l := by
  intro fuel
  induction fuel with
  | zero => intro draws l; exact List.Perm.refl _
  | succ fuel ih =>
    intro draws l
    cases l with
    | nil =>
      cases draws with
      | nil => exact List.Perm.refl _
      | cons d ds => exact List.Perm.refl _
    | cons a t =>
      cases draws with
      | nil => exact List.Perm.refl _
      | cons d ds =>
        have hlt : d % (a :: t).length < (a :: t).length :=
          Nat.mod_lt _ (Nat.succ_pos t.length)
        have step : pyShuffleAux (fuel + 1) (d :: ds) (a :: t) =
            (a :: t).get ⟨d % (a :: t).length, hlt⟩ ::
              pyShuffleAux fuel ds
                ((a :: t).eraseIdx (d % (a :: t).length)) := rfl
        rw [step]
        exact (List.Perm.cons _
            (ih ds ((a :: t).eraseIdx (d % (a :: t).length)))).trans
          (get_cons_eraseIdx_perm (a :: t) ⟨d % (a :: t).length, hlt⟩)

/-- `random.shuffle` permutes its input, whatever the random source. -/
theorem pyShuffle_perm {α : Type} (draws : List Nat) (l : List α) :
    (pyShuffle draws l).Perm l :=
  pyShuffleAux_perm l.length draws l

/-- C3: for a run step of a fixed run count, the multiset of run ids the
generated task-array body maps slots to is the same whether
`randomize_task_order` is enabled or not: with randomization on, the body
embeds a permutation of the ids `1..n`; with randomization off it embeds no
list and the template maps each slot to its own index, i.e. again `1..n`.
Randomization changes only the slot→run order, never the id multiset. -/
theorem randomize_preserves_run_id_multiset (env : GridEnv)
    (draws : List Nat) (n : Nat) (h : get_num_runs env = .ok n) :
    get_main_job_body_ids { env with randomize := true } draws =
        .ok (runIdsField true draws n) ∧
      get_main_job_body_ids { env with randomize := false } draws =
        .ok (runIdsField false draws n) ∧
      (↑(bodySlotIds (runIdsField true draws n) n) : Multiset String) =
        ↑(bodySlotIds (runIdsField false draws n) n) := by
  have hT : get_num_runs { env with randomize := true } = .ok n := h
  have hF : get_num_runs { env with randomize := false } = .ok n := h
  refine ⟨?_, ?_, ?_⟩
  · unfold get_main_job_body_ids
    rw [hT]
    rfl
  · unfold get_main_job_body_ids
    rw [hF]
    rfl
  · have hperm : (pyShuffle draws (taskIds n)).Perm (taskIds n) :=
      pyShuffle_perm draws (taskIds n)
    have hfieldT : runIdsField true draws n = pyShuffle draws (taskIds n) := by
      unfold runIdsField
      rfl
    have hfieldF : runIdsField false draws n = [] := by
      unfold runIdsField
      rfl
    rw [hfieldT, hfieldF]
    by_cases hε : (pyShuffle draws (taskIds n)).isEmpty = true
    · have h1 : pyShuffle draws (taskIds n) = [] := by
        exact List.isEmpty_iff.mp hε
      have h2 : taskIds n = [] := (h1 ▸ hperm).symm.eq_nil
      unfold bodySlotIds
      rw [h1, h2]
    · unfold bodySlotIds
      rw [if_neg hε]
      rw [if_pos (by rfl)]
      exact Multiset.coe_eq_coe.mpr hperm

/-- C3 witness: three runs, one concrete random source. -/
theorem randomize_preserves_run_id_multiset_witness :
    (↑(bodySlotIds (runIdsField true [2, 0] 3) 3) : Multiset String) =
      ↑(bodySlotIds (runIdsField false [2, 0] 3) 3) :=
  (randomize_preserves_run_id_multiset envThreeRuns [2, 0] 3 rfl).2.2

/-- Character-list lexicographic order is irreflexive. -/
theorem lex_irrefl_char : ∀ l : List Char, ¬ List.Lex (· < ·) l l := by
  intro l
  induction l with
  | nil => intro h; cases h
  | cons a t ih =>
    intro h
    cases h with
    | cons h => exact ih h
    | rel h => exact absurd h (lt_irrefl a)

/-- A common front extends lexicographic comparisons. -/
theorem lex_append_left_char (p : List Char) :
    ∀ x y : List Char, List.Lex (· < ·) x y →
      List.Lex (· < ·) (p ++ x) (p ++ y) := by
  induction p with
  | nil => intro x y h; exact h
  | cons a p ih => intro x y h; exact List.Lex.cons (ih x y h)

/-- Two equal-length fronts that compare strictly keep comparing strictly
whatever follows them. -/
theorem lex_sameLen_append (x y : List Char) :
    ∀ u v : List Char, List.Lex (· < ·) u v → u.length = v.length →
      List.Lex (· < ·) (u ++ x) (v ++ y) := by
  intro u v h
  induction h with
  | nil => intro hlen; simp at hlen
  | rel hab => intro _; exact List.Lex.rel hab
  | cons _ ih => intro hlen; exact List.Lex.cons (ih (by simpa using hlen))

/-- Up to 99, the zero-padded position is two characters wide. -/
theorem pct02d_len : ∀ i < 100, (pct02d i).data.length = 2 := by decide

/-- Up to 99, zero-padded positions compare like the numbers they denote. -/
theorem pct02d_lt : ∀ i < 100, ∀ j < 100, i < j →
    List.Lex (· < ·) (pct02d i).data (pct02d j).data := by decide

/-- In a duplicate-free step list, `steps.index` of the `i`-th step is `i`. -/
theorem stepIndex_get (steps : List Step) :
    ∀ (i : Nat) (hi : i < steps.length), steps.Nodup →
      stepIndex steps (steps.get ⟨i, hi⟩) = i := by
  induction steps with
  | nil => intro i hi; simp at hi
  | cons s t ih =>
    intro i hi hnd
    cases i with
    | zero =>
      unfold stepIndex
      simp [List.findIdx_cons]
    | succ i =>
      have hit : i < t.length := Nat.lt_of_succ_lt_succ hi
      have hget : (s :: t).get ⟨i + 1, hi⟩ = t.get ⟨i, hit⟩ := rfl
      have hne : ¬ (s = t.get ⟨i, hit⟩) := by
        intro he
        have hmem : s ∈ t := he ▸ List.get_mem t i hit
        exact (List.nodup_cons.mp hnd).1 hmem
      have hrec := ih i hit (List.nodup_cons.mp hnd).2
      unfold stepIndex at hrec ⊢
      rw [hget]
      simp only [List.get_eq_getElem] at hne hrec
      simp [List.findIdx_cons, hne, hrec]

/-- The job name of a step of an experiment with a non-empty name, spelled
out: escape prefix, experiment name, dash, padded 1-based position, dash,
step name. -/
theorem get_job_name_eq (env : GridEnv) (step : Step) (c : Char)
    (cs : List Char) (hname : env.expName.data = c :: cs) :
    get_job_name env step =
      some (((if c.isDigit then "j" else "") ++ env.expName ++ "-") ++
        pct02d (stepIndex env.expSteps step + 1) ++ "-" ++ step.name) := by
  unfold get_job_name jobNameHead
  rw [hname]
  rfl

/-- The character list of a job name, split in front of the padded
position. -/
theorem job_name_data (H : String) (k : Nat) (nm : String) :
    (H ++ pct02d k ++ "-" ++ nm).data =
      H.data ++ ((pct02d k).data ++ ('-' :: nm.data)) := by
  rw [String.data_append, String.data_append, String.data_append]
  simp [List.append_assoc]

/-- C8 amended: for a fixed experiment name and an ordered, duplicate-free
chain of at most 99 steps, job names strictly increase (in code-point
lexicographic order) with chain position and are pairwise distinct; the
name is the escaped experiment name, the zero-padded 1-based position, and
the step name.  (At 100 steps or more the two-digit zero-padding overflows
and lexicographic monotonicity fails, see the counterexample.) -/
theorem job_names_ordered (env : GridEnv) (i j : Nat)
    (c : Char) (cs : List Char) (hname : env.expName.data = c :: cs)
    (hnodup : env.expSteps.Nodup) (hlen : env.expSteps.length ≤ 99)
    (hij : i < j) (hj : j < env.expSteps.length) :
    ∃ ni nj,
      get_job_name env (env.expSteps.get ⟨i, Nat.lt_trans hij hj⟩) = some ni ∧
      get_job_name env (env.expSteps.get ⟨j, hj⟩) = some nj ∧
      List.Lex (· < ·) ni.data nj.data ∧ ni ≠ nj := by
  have hi : i < env.expSteps.length := Nat.lt_trans hij hj
  have hii : stepIndex env.expSteps (env.expSteps.get ⟨i, hi⟩) = i :=
    stepIndex_get env.expSteps i hi hnodup
  have hjj : stepIndex env.expSteps (env.expSteps.get ⟨j, hj⟩) = j :=
    stepIndex_get env.expSteps j hj hnodup
  have hni := get_job_name_eq env (env.expSteps.get ⟨i, hi⟩) c cs hname
  have hnj := get_job_name_eq env (env.expSteps.get ⟨j, hj⟩) c cs hname
  rw [hii] at hni
  rw [hjj] at hnj
  have hlex : List.Lex (· < ·)
      ((((if c.isDigit then "j" else "") ++ env.expName ++ "-") ++
        pct02d (i + 1) ++ "-" ++ (env.expSteps.get ⟨i, hi⟩).name).data)
      ((((if c.isDigit then "j" else "") ++ env.expName ++ "-") ++
        pct02d (j + 1) ++ "-" ++ (env.expSteps.get ⟨j, hj⟩).name).data) := by
    rw [job_name_data, job_name_data]
    apply lex_append_left_char
    apply lex_sameLen_append
    · exact pct02d_lt (i + 1) (by omega) (j + 1) (by omega) (by omega)
    · rw [pct02d_len (i + 1) (by omega), pct02d_len (j + 1) (by omega)]
  refine ⟨_, _, hni, hnj, hlex, ?_⟩
  intro he
  exact lex_irrefl_char _ (congrArg String.data he ▸ hlex)

/-- C8 witness: experiment `foo` with steps build, run, report yields
`foo-01-build`, `foo-02-run`, `foo-03-report`, in strictly increasing
order. -/
theorem job_names_ordered_witness :
    get_job_name fooEnv ⟨"build", "build"⟩ = some "foo-01-build" ∧
      get_job_name fooEnv ⟨"run", "run"⟩ = some "foo-02-run" ∧
      get_job_name fooEnv ⟨"report", "report"⟩ = some "foo-03-report" ∧
      (∃ n1 n2,
        get_job_name fooEnv (fooEnv.expSteps.get ⟨0, by decide⟩) = some n1 ∧
        get_job_name fooEnv (fooEnv.expSteps.get ⟨1, by decide⟩) = some n2 ∧
        List.Lex (· < ·) n1.data n2.data ∧ n1 ≠ n2) ∧
      (∃ n2 n3,
        get_job_name fooEnv (fooEnv.expSteps.get ⟨1, by decide⟩) = some n2 ∧
        get_job_name fooEnv (fooEnv.expSteps.get ⟨2, by decide⟩) = some n3 ∧
        List.Lex (· < ·) n2.data n3.data ∧ n2 ≠ n3) :=
  ⟨by decide, by decide, by decide,
    job_names_ordered fooEnv 0 1 'f' ['o', 'o'] rfl (by decide) (by decide)
      (by decide) (by decide),
    job_names_ordered fooEnv 1 2 'f' ['o', 'o'] rfl (by decide) (by decide)
      (by decide) (by decide)⟩

/-- C8 counterexample: at one hundred steps the two-digit padding overflows;
the job name of chain position 100 sorts before the one of position 99, so
for this experiment the generated names are not strictly increasing in chain
position. -/
theorem job_names_not_ordered_at_100 :
    get_job_name hundredEnv ⟨"y", "build"⟩ = some "foo-99-y" ∧
      get_job_name hundredEnv ⟨"z", "build"⟩ = some "foo-100-z" ∧
      ¬ List.Lex (· < ·) "foo-99-y".data "foo-100-z".data ∧
      List.Lex (· < ·) "foo-100-z".data "foo-99-y".data :=
  ⟨by decide, by decide, by decide, by decide⟩

/-- Splitting the submission loop: as long as the first stretch of steps
does not abort, processing a concatenation processes the first stretch and
continues with the rest from the resulting state, numbering it after the
first stretch. -/
theorem runStepsFrom_append (env : GridEnv) (draws : List Nat) (total : Nat) :
    ∀ (a b : List Step) (num : Nat) (st : LoopState),
      (runStepsFrom env draws total num st a).2.2 = false →
      runStepsFrom env draws total num st (a ++ b) =
        ((runStepsFrom env draws total num st a).1 ++
            (runStepsFrom env draws total (num + a.length)
              (runStepsFrom env draws total num st a).2.1 b).1,
          (runStepsFrom env draws total (num + a.length)
            (runStepsFrom env draws total num st a).2.1 b).2) := by
  intro a
  induction a with
  | nil =>
    intro b num st _
    simp [runStepsFrom]
  | cons s a ih =>
    intro b num st hab
    have hcons : (s :: a) ++ b = s :: (a ++ b) := rfl
    rw [hcons]
    simp only [runStepsFrom] at hab ⊢
    cases habort : (processStep env draws total num st s).2.2 with
    | true =>
      rw [habort] at hab
      simp at hab
    | false =>
      rw [habort] at hab
      simp only [if_neg Bool.false_ne_true] at hab ⊢
      rw [ih b (num + 1) (processStep env draws total num st s).2.1
        (by simpa using hab)]
      have harith : num + (a.length + 1) = num + 1 + a.length := by omega
      simp [List.append_assoc, List.length_cons, harith]

/-- A step whose processing aborts ends the loop with its events. -/
theorem runStepsFrom_cons_abort (env : GridEnv) (draws : List Nat)
    (total num : Nat) (st : LoopState) (s : Step) (post : List Step)
    (ev : List Event) (st2 : LoopState)
    (h : processStep env draws total num st s = (ev, st2, true)) :
    runStepsFrom env draws total num st (s :: post) = (ev, st2, true) := by
  simp [runStepsFrom, h]

/-- A step whose processing continues is followed by the remaining steps. -/
theorem runStepsFrom_cons_continue (env : GridEnv) (draws : List Nat)
    (total num : Nat) (st : LoopState) (s : Step) (post : List Step)
    (ev : List Event) (st2 : LoopState)
    (h : processStep env draws total num st s = (ev, st2, false)) :
    runStepsFrom env draws total num st (s :: post) =
      (ev ++ (runStepsFrom env draws total (num + 1) st2 post).1,
        (runStepsFrom env draws total (num + 1) st2 post).2) := by
  simp [runStepsFrom, h]

/-- Processing a run step beyond the task ceiling: the marker guard does not
fire, the job name is computed, the job file is opened, and computing its
header hits the capacity check, which logs the fatal message naming the
requested and allowed counts and aborts — before any content is written and
before any command is invoked. -/
theorem processStep_capacity_abort (env : GridEnv) (draws : List Nat)
    (total num : Nat) (st : LoopState) (s : Step) (m : Nat) (jn : String)
    (hmax : env.maxTasks = some m)
    (hover : ceilDivPy env.numRunsExp env.runsPerTask > m)
    (hrun : s.funcname = "run")
    (hjn : get_job_name env s = some jn)
    (hmark : jobDirOf env s ++ "/submitted" ∉ st.fs) :
    processStep env draws total num st s =
      ([Event.createFile (jobDirOf env s ++ "/" ++ jn),
        Event.criticalLog (capacityMsg
          (ceilDivPy env.numRunsExp env.runsPerTask) m)],
       { st with fs := (jobDirOf env s ++ "/" ++ jn) :: st.fs }, true) := by
  have hnt : get_num_tasks env s =
      .error (capacityMsg (ceilDivPy env.numRunsExp env.runsPerTask) m) := by
    unfold get_num_tasks
    rw [if_pos hrun]
    unfold get_num_runs
    rw [hmax]
    simp only
    rw [if_pos hover]
  have hgj : get_job env draws s jn (num = total) =
      .error (capacityMsg (ceilDivPy env.numRunsExp env.runsPerTask) m) := by
    unfold get_job get_job_header
    rw [hnt]
    rfl
  simp only [processStep]
  rw [if_neg (fun hc => hmark hc.2)]
  simp only [submitStep, hjn, hgj]

/-- Processing a run step whose marker file exists and whose prompt the user
declines: the prompt is the only event, the state keeps its files and its
dependency anchor (only the answer is consumed), and the whole invocation
aborts — the job file is never opened or written and no command is run. -/
theorem processStep_decline (env : GridEnv) (draws : List Nat)
    (total num : Nat) (st : LoopState) (s : Step) (ans : List Bool)
    (hrun : s.funcname = "run")
    (hmark : jobDirOf env s ++ "/submitted" ∈ st.fs)
    (hans : st.answers = false :: ans) :
    processStep env draws total num st s =
      ([Event.prompt (confirmMsg (jobDirOf env s ++ "/submitted"))],
        { st with answers := ans }, true) := by
  simp only [processStep]
  rw [if_pos ⟨hrun, hmark⟩]
  rw [hans]
  simp

/-- C1: when `ceil(run_count / runs_per_task)` exceeds `MAX_TASKS`, the job
chain builder rejects the first run step before submission: after the steps
preceding it (processed without abort, with no stale marker file for the run
step), the only further events are the open of the run step's job file and
the fatal capacity log naming both the requested and the allowed task
counts; the pipeline aborts, no content is ever written to that job file,
and no submission command is invoked for it. -/
theorem capacity_violation_rejects_run_step (env : GridEnv)
    (draws : List Nat) (pre post : List Step) (s : Step) (st0 : LoopState)
    (m : Nat) (c : Char) (cs : List Char)
    (hname : env.expName.data = c :: cs)
    (hmax : env.maxTasks = some m)
    (hover : ceilDivPy env.numRunsExp env.runsPerTask > m)
    (hrun : s.funcname = "run")
    (hpre : (runStepsFrom env draws (pre ++ s :: post).length 1 st0 pre).2.2
      = false)
    (hmark : jobDirOf env s ++ "/submitted" ∉
      (runStepsFrom env draws (pre ++ s :: post).length 1 st0 pre).2.1.fs) :
    ∃ jn evPre st1,
      get_job_name env s = some jn ∧
      runStepsFrom env draws (pre ++ s :: post).length 1 st0 pre =
        (evPre, st1, false) ∧
      run_steps env draws st0 (pre ++ s :: post) =
        (evPre ++ [Event.createFile (jobDirOf env s ++ "/" ++ jn),
            Event.criticalLog (capacityMsg
              (ceilDivPy env.numRunsExp env.runsPerTask) m)],
          { st1 with fs := (jobDirOf env s ++ "/" ++ jn) :: st1.fs }, true) ∧
      (∀ content, Event.writeFile (jobDirOf env s ++ "/" ++ jn) content ∉
          [Event.createFile (jobDirOf env s ++ "/" ++ jn),
            Event.criticalLog (capacityMsg
              (ceilDivPy env.numRunsExp env.runsPerTask) m)]) ∧
      (∀ cmd, Event.runCommand cmd ∉
          [Event.createFile (jobDirOf env s ++ "/" ++ jn),
            Event.criticalLog (capacityMsg
              (ceilDivPy env.numRunsExp env.runsPerTask) m)]) := by
  have hjn := get_job_name_eq env s c cs hname
  refine ⟨_, (runStepsFrom env draws (pre ++ s :: post).length 1 st0 pre).1,
    (runStepsFrom env draws (pre ++ s :: post).length 1 st0 pre).2.1,
    hjn, ?_, ?_, ?_, ?_⟩
  · rw [← hpre]
  · unfold run_steps
    rw [runStepsFrom_append env draws (pre ++ s :: post).length pre
      (s :: post) 1 st0 hpre]
    rw [runStepsFrom_cons_abort env draws (pre ++ s :: post).length
      (1 + pre.length)
      (runStepsFrom env draws (pre ++ s :: post).length 1 st0 pre).2.1 s post
      _ _ (processStep_capacity_abort env draws (pre ++ s :: post).length
        (1 + pre.length)
        (runStepsFrom env draws (pre ++ s :: post).length 1 st0 pre).2.1 s m _
        hmax hover hrun hjn hmark)]
  · intro content
    simp
  · intro cmd
    simp

/-- C4 counterexample: a two-step chain whose run step has a stale marker
and whose user declines the prompt.  The whole invocation aborts at the
prompt: the trace holds the prompt alone — the report step contributes no
events, so the rest of the pipeline does not continue, contrary to the
claim.  (The marker is untouched and no submission command runs, which the
amended theorem states in general.) -/
theorem declined_resubmission_stops_pipeline :
    run_steps envThreeRuns [] (LoopState.mk none ["/e/submitted"] [false])
        [Step.mk "run" "run", Step.mk "report" "report"] =
      ([Event.prompt (confirmMsg "/e/submitted")],
        LoopState.mk none ["/e/submitted"] [], true) := by
  decide

/-- C4 amended: when a run step's `submitted` marker already exists, the
builder prompts for explicit confirmation before resubmitting; if the user
declines, the whole `run_steps` invocation aborts at that prompt: the
marker file and previously submitted jobs are left untouched (only the
consumed answer changes in the state), the submission command is not
invoked again for that step, and — the pipeline having stopped — no later
step runs either. -/
theorem declined_resubmission_aborts_invocation (env : GridEnv)
    (draws : List Nat) (pre post : List Step) (s : Step) (st0 : LoopState)
    (ans : List Bool)
    (hrun : s.funcname = "run")
    (hpre : (runStepsFrom env draws (pre ++ s :: post).length 1 st0 pre).2.2
      = false)
    (hmark : jobDirOf env s ++ "/submitted" ∈
      (runStepsFrom env draws (pre ++ s :: post).length 1 st0 pre).2.1.fs)
    (hans : (runStepsFrom env draws
        (pre ++ s :: post).length 1 st0 pre).2.1.answers = false :: ans) :
    ∃ evPre st1,
      runStepsFrom env draws (pre ++ s :: post).length 1 st0 pre =
        (evPre, st1, false) ∧
      run_steps env draws st0 (pre ++ s :: post) =
        (evPre ++
            [Event.prompt (confirmMsg (jobDirOf env s ++ "/submitted"))],
          { st1 with answers := ans }, true) ∧
      ({ st1 with answers := ans }).fs = st1.fs ∧
      ({ st1 with answers := ans }).prevJob = st1.prevJob ∧
      (∀ p content, Event.writeFile p content ∉
        [Event.prompt (confirmMsg (jobDirOf env s ++ "/submitted"))]) ∧
      (∀ cmd, Event.runCommand cmd ∉
        [Event.prompt (confirmMsg (jobDirOf env s ++ "/submitted"))]) := by
  refine ⟨(runStepsFrom env draws (pre ++ s :: post).length 1 st0 pre).1,
    (runStepsFrom env draws (pre ++ s :: post).length 1 st0 pre).2.1,
    ?_, ?_, rfl, rfl, ?_, ?_⟩
  · rw [← hpre]
  · unfold run_steps
    rw [runStepsFrom_append env draws (pre ++ s :: post).length pre
      (s :: post) 1 st0 hpre]
    rw [runStepsFrom_cons_abort env draws (pre ++ s :: post).length
      (1 + pre.length)
      (runStepsFrom env draws (pre ++ s :: post).length 1 st0 pre).2.1 s post
      _ _ (processStep_decline env draws (pre ++ s :: post).length
        (1 + pre.length)
        (runStepsFrom env draws (pre ++ s :: post).length 1 st0 pre).2.1 s ans
        hrun hmark hans)]
  · intro p content
    simp
  · intro cmd
    simp

/-- C1 witness: five runs against a ceiling of two; the run step is rejected
with the capacity error and the chain aborts without writing or submitting
its job. -/
theorem capacity_violation_rejects_run_step_witness :
    ∃ jn evPre st1,
      get_job_name envCap (Step.mk "run" "run") = some jn ∧
      runStepsFrom envCap [] 2 1 (LoopState.mk none [] []) [] =
        (evPre, st1, false) ∧
      run_steps envCap [] (LoopState.mk none [] [])
          [Step.mk "run" "run", Step.mk "report" "report"] =
        (evPre ++ [Event.createFile
              (jobDirOf envCap (Step.mk "run" "run") ++ "/" ++ jn),
            Event.criticalLog (capacityMsg
              (ceilDivPy envCap.numRunsExp envCap.runsPerTask) 2)],
          { st1 with fs :=
              (jobDirOf envCap (Step.mk "run" "run") ++ "/" ++ jn) :: st1.fs },
          true) ∧
      (∀ content, Event.writeFile
          (jobDirOf envCap (Step.mk "run" "run") ++ "/" ++ jn) content ∉
          [Event.createFile
              (jobDirOf envCap (Step.mk "run" "run") ++ "/" ++ jn),
            Event.criticalLog (capacityMsg
              (ceilDivPy envCap.numRunsExp envCap.runsPerTask) 2)]) ∧
      (∀ cmd, Event.runCommand cmd ∉
          [Event.createFile
              (jobDirOf envCap (Step.mk "run" "run") ++ "/" ++ jn),
            Event.criticalLog (capacityMsg
              (ceilDivPy envCap.numRunsExp envCap.runsPerTask) 2)]) :=
  capacity_violation_rejects_run_step envCap [] [] [Step.mk "report" "report"]
    (Step.mk "run" "run") (LoopState.mk none [] []) 2 'e' ['x', 'p'] rfl rfl
    (by decide) rfl rfl (by simp [runStepsFrom])

/-- C4 witness: a marker file from an earlier submission and a declining
user; the invocation stops with the prompt as its only further event. -/
theorem declined_resubmission_aborts_invocation_witness :
    ∃ evPre st1,
      runStepsFrom envThreeRuns [] 2 1
          (LoopState.mk none ["/e/submitted"] [false]) [] =
        (evPre, st1, false) ∧
      run_steps envThreeRuns [] (LoopState.mk none ["/e/submitted"] [false])
          [Step.mk "run" "run", Step.mk "report" "report"] =
        (evPre ++ [Event.prompt (confirmMsg
            (jobDirOf envThreeRuns (Step.mk "run" "run") ++ "/submitted"))],
          { st1 with answers := ([] : List Bool) }, true) ∧
      ({ st1 with answers := ([] : List Bool) }).fs = st1.fs ∧
      ({ st1 with answers := ([] : List Bool) }).prevJob = st1.prevJob ∧
      (∀ p content, Event.writeFile p content ∉
        [Event.prompt (confirmMsg
          (jobDirOf envThreeRuns (Step.mk "run" "run") ++ "/submitted"))]) ∧
      (∀ cmd, Event.runCommand cmd ∉
        [Event.prompt (confirmMsg
          (jobDirOf envThreeRuns (Step.mk "run" "run") ++ "/submitted"))]) :=
  declined_resubmission_aborts_invocation envThreeRuns [] []
    [Step.mk "report" "report"] (Step.mk "run" "run")
    (LoopState.mk none ["/e/submitted"] [false]) [] rfl rfl (by decide) rfl
